import Mathlib

/-!
Shallow embedding of the `up_csv_import` plugin
(`src/ultrasonics/official_plugins/up_csv_import.py`).

Conventions of the embedding:

per-row values are Python dicts of strings; we model them as association
lists with unique keys, built by `dictInsert` (replace in place when the
key exists, append otherwise — the semantics of Python dict assignment,
including the last-wins behaviour of duplicate keys in a dict literal).
`dictGet?` is `dict.get`.  A missing key read through the Python idiom
`(d.get(k) or "")` and a `None` value both come out as the empty string,
so `restval=None` cells of `csv.DictReader` are modelled as `""`.

File contents are modelled after decoding by the `csv` module: a file is a
list of rows, each row a list of cell strings (`csv.reader` output; blank
lines decode to `[]`).  The file system, `glob` and `open` are modelled by
the `FileSys` record: reading a file either yields its decoded rows or
fails (an OSError / UnicodeDecodeError / csv.Error raised while reading).

Python string primitives are modelled by structurally recursive functions
over the character list of the string, so that every definition evaluates
by kernel reduction: `str.strip()` is `pyStrip` (drop whitespace at both
ends), `str.lower()` is `pyLower` (ASCII lowercasing, which is all the
configured column names exercise), `s.split(sep)` for a one-character
separator is `pySplit` (returns `[""]` on `""`, like Python).
-/

/-- Python `str.strip()`: drop leading and trailing whitespace. -/
def pyStrip (s : String) : String :=
  String.mk (((s.toList.dropWhile Char.isWhitespace).reverse.dropWhile Char.isWhitespace).reverse)

/-- Python `str.lower()` (ASCII range). -/
def pyLower (s : String) : String :=
  String.mk (s.toList.map Char.toLower)

/-- Split a character list on a separator character; never returns `[]`. -/
def splitOnCharAux (sep : Char) (cs : List Char) : List (List Char) :=
  match cs with
  | [] => [[]]
  | c :: rest =>
    if c = sep then [] :: splitOnCharAux sep rest
    else
      match splitOnCharAux sep rest with
      | [] => [[c]]
      | h :: t => (c :: h) :: t

/-- Python `s.split(sep)` for a single-character separator. -/
def pySplit (s : String) (sep : Char) : List String :=
  (splitOnCharAux sep s.toList).map String.mk

instance [DecidableEq ε] [DecidableEq α] : DecidableEq (Except ε α)
  | .error a, .error b =>
    if h : a = b then .isTrue (congrArg Except.error h)
    else .isFalse (fun hh => h (Except.error.inj hh))
  | .error _, .ok _ => .isFalse (fun hh => Except.noConfusion hh)
  | .ok _, .error _ => .isFalse (fun hh => Except.noConfusion hh)
  | .ok a, .ok b =>
    if h : a = b then .isTrue (congrArg Except.ok h)
    else .isFalse (fun hh => h (Except.ok.inj hh))

abbrev Dict := List (String × String)

/-- Python dict assignment `d[k] = v`: replace in place, else append. -/
def dictInsert (d : Dict) (k v : String) : Dict :=
  match d with
  | [] => [(k, v)]
  | (k0, v0) :: rest => if k0 = k then (k0, v) :: rest else (k0, v0) :: dictInsert rest k v

/-- Python `d.get(k)`. -/
def dictGet? (d : Dict) (k : String) : Option String :=
  match d with
  | [] => none
  | (k0, v0) :: rest => if k0 = k then some v0 else dictGet? rest k

/-- Python `(d.get(k) or "")` for a string-valued dict. -/
def pyGet (d : Dict) (k : String) : String :=
  (dictGet? d k).getD ""

/-- Python `(v or default)` for strings: the empty string is falsy. -/
def pyOr (v default : String) : String :=
  if v = "" then default else v

/-- The nine logical field keys mapped to configured column names
(`field_names` in the source). -/
structure FieldNames where
  playlist : String
  title : String
  artists : String
  album : String
  date : String
  isrc : String
  location : String
  spotify_id : String
  tidal_id : String
deriving Repr, DecidableEq

/-- The `id` sub-mapping of a track: keys `spotify` and `tidal`,
each present only when non-empty. -/
structure TrackIds where
  spotify : Option String := none
  tidal : Option String := none
deriving Repr, DecidableEq

/-- A track dict in ultrasonics songs_dict format.  An `Option` field is
`none` exactly when the corresponding key is absent from the Python dict;
`id = none` models the whole `id` key being absent. -/
structure Track where
  title : String
  artists : Option (List String) := none
  album : Option String := none
  date : Option String := none
  isrc : Option String := none
  location : Option String := none
  id : Option TrackIds := none
deriving Repr, DecidableEq

/-- A playlist entry `{"name": ..., "id": {}, "songs": [...]}`.
The `id` field is always the empty mapping in this plugin. -/
structure Playlist where
  name : String
  id : Dict := []
  songs : List Track
deriving Repr, DecidableEq

/-- `_get_field_name(settings_dict, key, default)`:
`(settings_dict.get(key) or "").strip() or default`. -/
def _get_field_name (settings_dict : Dict) (key default : String) : String :=
  pyOr (pyStrip (pyGet settings_dict key)) default

/-- `_get_cell(row, header_map, configured_name)`.  Note: in the source,
`if header_map:` is falsy for both `None` and the empty dict; for the
empty dict, `header_map.get(key.lower(), key)` returns `key` as well, so
modelling the empty dict through the `some` branch is extensionally
faithful. -/
def _get_cell (row : Dict) (header_map : Option Dict) (configured_name : String) : String :=
  let key := pyStrip configured_name
  if key = "" then ""
  else
    let actual :=
      match header_map with
      | some hm => (dictGet? hm (pyLower key)).getD key
      | none => key
    pyStrip ((dictGet? row actual).getD "")

/-- `_row_to_track(row, field_names, header_map)`: convert a CSV row
(dict) into a single track entry, or `none` for rows without a title. -/
def _row_to_track (row : Dict) (field_names : FieldNames) (header_map : Option Dict) :
    Option Track :=
  let title := _get_cell row header_map field_names.title
  if title = "" then none
  else
    let artists_raw := _get_cell row header_map field_names.artists
    let artists :=
      if artists_raw ≠ "" then
        let l := ((pySplit artists_raw ';').map pyStrip).filter (fun a => a ≠ "")
        if l ≠ [] then some l else none
      else none
    let album := _get_cell row header_map field_names.album
    let date := _get_cell row header_map field_names.date
    let isrc := _get_cell row header_map field_names.isrc
    let location := _get_cell row header_map field_names.location
    let spotify_id := _get_cell row header_map field_names.spotify_id
    let tidal_id := _get_cell row header_map field_names.tidal_id
    some {
      title := title
      artists := artists
      album := if album ≠ "" then some album else none
      date := if date ≠ "" then some date else none
      isrc := if isrc ≠ "" then some isrc else none
      location := if location ≠ "" then some location else none
      id :=
        if spotify_id ≠ "" ∨ tidal_id ≠ "" then
          some { spotify := if spotify_id ≠ "" then some spotify_id else none
                 tidal := if tidal_id ≠ "" then some tidal_id else none }
        else none
    }

/-- The header map `{h.lower(): h for h in (reader.fieldnames or []) if h}`:
a dict comprehension, so duplicate lowercased names resolve last-wins. -/
def mkHeaderMap (fieldnames : List String) : Dict :=
  (fieldnames.filter (fun h => h ≠ "")).foldl (fun m h => dictInsert m (pyLower h) h) []

/-- One `csv.DictReader` row: `dict(zip(fieldnames, cells))`, with missing
trailing fields filled by `restval=None` (read back as `""` through the
`or ""` idiom) and surplus cells collected under the non-string `restkey`,
which no string lookup ever reaches (so they are dropped here). -/
def rowToDict (fieldnames : List String) (cells : List String) : Dict :=
  let padded := cells ++ List.replicate (fieldnames.length - cells.length) ""
  (fieldnames.zip padded).foldl (fun d kv => dictInsert d kv.1 kv.2) []

/-- The data rows a `csv.DictReader` yields from decoded file rows: the
first row is consumed as `fieldnames`; empty rows (blank lines) are
skipped by the reader itself. -/
def dictReaderRows (rows : List (List String)) : List Dict :=
  match rows with
  | [] => []
  | header :: data => (data.filter (fun r => r ≠ [])).map (rowToDict header)

/-- The fieldnames a `csv.DictReader` reports (`reader.fieldnames or []`). -/
def dictReaderFieldnames (rows : List (List String)) : List String :=
  match rows with
  | [] => []
  | header :: _ => header

/-- The skip test of both headerless loops:
`if not row or all(not (cell or "").strip() for cell in row): continue`. -/
def blankRow (row : List String) : Bool :=
  row = [] || row.all (fun cell => pyStrip cell = "")

/-- The body of the headerless (Mode A) row loop of
`_read_one_csv_as_playlist`: skip blank rows, pad to 8 positional columns
(`max(0, 8 - len(row))` is Nat subtraction), build the positional
`row_dict` (a dict literal, so colliding configured names resolve
last-wins through `dictInsert`), and convert it. -/
def _headerless_row_to_track (field_names : FieldNames) (row : List String) : Option Track :=
  if blankRow row then none
  else
    let padded := row ++ List.replicate (8 - row.length) ""
    let row_dict :=
      [(field_names.title, padded.getD 0 ""),
       (field_names.artists, padded.getD 1 ""),
       (field_names.album, padded.getD 2 ""),
       (field_names.date, padded.getD 3 ""),
       (field_names.isrc, padded.getD 4 ""),
       (field_names.location, padded.getD 5 ""),
       (field_names.spotify_id, padded.getD 6 ""),
       (field_names.tidal_id, padded.getD 7 "")].foldl
        (fun d kv => dictInsert d kv.1 kv.2) []
    _row_to_track row_dict field_names none

/-- `os.path.basename` for POSIX paths: the part after the last slash. -/
def basename (p : String) : String :=
  (pySplit p '/').getLastD ""

/-- The root part of `os.path.splitext`: cut at the last dot, unless every
character before that dot is itself a dot (leading-dot file names such as
`.bashrc` keep their name whole). -/
def splitextRoot (name : String) : String :=
  let cs := name.toList
  match ((List.range cs.length).filter (fun i => cs.getD i ' ' = '.')).getLast? with
  | none => name
  | some i =>
    if (cs.take i).all (fun c => c = '.') then name
    else String.mk (cs.take i)

/-- `os.path.splitext(os.path.basename(path))[0]`. -/
def playlistNameOfPath (path : String) : String :=
  splitextRoot (basename path)

/-- `_read_one_csv_as_playlist(path, delimiter, has_header, field_names)`
applied to the decoded rows of the file.  The delimiter is consumed by the
`csv` module during decoding and so does not appear here. -/
def _read_one_csv_as_playlist (path : String) (has_header : Bool) (field_names : FieldNames)
    (rows : List (List String)) : Option Playlist :=
  let tracks :=
    if has_header then
      (dictReaderRows rows).filterMap
        (fun row => _row_to_track row field_names (some (mkHeaderMap (dictReaderFieldnames rows))))
    else
      rows.filterMap (_headerless_row_to_track field_names)
  if tracks = [] then none
  else some { name := playlistNameOfPath path, id := [], songs := tracks }

/-- The file system, `glob` and `open`+`csv` decoding, as the plugin sees
them.  `readCsv` yields the decoded rows of a file or the exception text
raised while opening, decoding or parsing it. -/
structure FileSys where
  isFile : String → Bool
  isDir : String → Bool
  globCsvRecursive : String → List String
  globCsvTop : String → List String
  readCsv : String → Except String (List (List String))

/-- Lexicographic comparison of character lists by code point — the order
Python string comparison uses. -/
def charListLe : List Char → List Char → Bool
  | [], _ => true
  | _ :: _, [] => false
  | a :: as, b :: bs =>
    if a.toNat < b.toNat then true
    else if b.toNat < a.toNat then false
    else charListLe as bs

/-- Python string `<=`. -/
def pyStrLe (a b : String) : Bool :=
  charListLe a.toList b.toList

/-- Insert into a sorted list, before the first element not below `a`
(keeps a stable sort: an element inserted later goes after equal ones
already placed when processed left to right, see `pySorted`). -/
def orderedInsertB (le : α → α → Bool) (a : α) : List α → List α
  | [] => [a]
  | b :: l => if le a b then a :: b :: l else b :: orderedInsertB le a l

/-- Stable insertion sort.  Python `sorted` is also a stable sort by the
same total preorder, and any two stable sorts by the same total preorder
agree, so this models `sorted` faithfully. -/
def insertionSortB (le : α → α → Bool) : List α → List α
  | [] => []
  | a :: l => orderedInsertB le a (insertionSortB le l)

/-- `sorted(strings)`. -/
def pySorted (l : List String) : List String :=
  insertionSortB pyStrLe l

/-- `_csv_files_in_folder(folder_path, include_subfolders)`: the glob
results, sorted. -/
def _csv_files_in_folder (fs : FileSys) (folder_path : String) (include_subfolders : Bool) :
    List String :=
  if include_subfolders then pySorted (fs.globCsvRecursive folder_path)
  else pySorted (fs.globCsvTop folder_path)

/-- One iteration of the folder loop of `run`: the whole body runs under
`try`, so a file whose read fails is logged and skipped (`none`), and a
file with no valid tracks appends nothing. -/
def _folder_item (fs : FileSys) (has_header : Bool) (field_names : FieldNames)
    (csv_path : String) : Option Playlist :=
  match fs.readCsv csv_path with
  | .error _ => none
  | .ok rows => _read_one_csv_as_playlist csv_path has_header field_names rows

/-- The folder branch of `run`. -/
def _folder_playlists (fs : FileSys) (path : String) (include_subfolders has_header : Bool)
    (field_names : FieldNames) : List Playlist :=
  (_csv_files_in_folder fs path include_subfolders).filterMap
    (_folder_item fs has_header field_names)

/-- `playlists.setdefault(playlist_name, []).append(track)`: append the
track to the first bucket with this name, creating a new bucket at the end
on first sight (Python dicts preserve insertion order). -/
def bucketAdd (bs : List (String × List Track)) (name : String) (t : Track) :
    List (String × List Track) :=
  match bs with
  | [] => [(name, [t])]
  | (n, ts) :: rest =>
    if n = name then (n, ts ++ [t]) :: rest else (n, ts) :: bucketAdd rest name t

/-- The Mode B accumulation loop over per-row results: rows the extractor
skips (`continue`) leave the buckets unchanged. -/
def foldBuckets (g : α → Option (String × Track)) (rows : List α) :
    List (String × List Track) :=
  rows.foldl
    (fun bs r => match g r with | none => bs | some (n, t) => bucketAdd bs n t) []

/-- The body of the header-mode row loop of the Mode B branch of `run`:
resolve the playlist name first and skip the row entirely when it is
empty; then build the track and skip the row when there is none. -/
def _modeB_row (field_names : FieldNames) (header_map : Dict) (row : Dict) :
    Option (String × Track) :=
  let playlist_name := _get_cell row (some header_map) field_names.playlist
  if playlist_name = "" then none
  else (_row_to_track row field_names (some header_map)).map (fun t => (playlist_name, t))

/-- The body of the headerless row loop of the Mode B branch of `run`:
skip blank rows, require at least 2 positional columns, pad to 9, take the
playlist name from column 0 (skip when blank), build the positional
`row_dict` and convert it. -/
def _headerlessB_row (field_names : FieldNames) (row : List String) :
    Option (String × Track) :=
  if blankRow row then none
  else if row.length < 2 then none
  else
    let padded := row ++ List.replicate (9 - row.length) ""
    let playlist_name := pyStrip (padded.getD 0 "")
    if playlist_name = "" then none
    else
      let row_dict :=
        [(field_names.playlist, padded.getD 0 ""),
         (field_names.title, padded.getD 1 ""),
         (field_names.artists, padded.getD 2 ""),
         (field_names.album, padded.getD 3 ""),
         (field_names.date, padded.getD 4 ""),
         (field_names.isrc, padded.getD 5 ""),
         (field_names.location, padded.getD 6 ""),
         (field_names.spotify_id, padded.getD 7 ""),
         (field_names.tidal_id, padded.getD 8 "")].foldl
          (fun d kv => dictInsert d kv.1 kv.2) []
      (_row_to_track row_dict field_names none).map (fun t => (playlist_name, t))

/-- The Mode B branch of `run` applied to the decoded rows of the single
file: group tracks into buckets, then emit one playlist per bucket in
dict iteration order. -/
def _modeB_playlists (has_header : Bool) (field_names : FieldNames)
    (rows : List (List String)) : List Playlist :=
  let buckets :=
    if has_header then
      foldBuckets (_modeB_row field_names (mkHeaderMap (dictReaderFieldnames rows)))
        (dictReaderRows rows)
    else
      foldBuckets (_headerlessB_row field_names) rows
  buckets.map (fun b => { name := b.1, id := [], songs := b.2 })

/-- The distinct exception exits of `run`.  The source raises plain
`Exception`s; the constructors record which `raise` fired (and, for
`readError`, an exception propagating out of reading the single targeted
file, which `run` does not catch). -/
inductive RunError where
  | missingComponent : RunError
  | badComponent : String → RunError
  | missingPath : RunError
  | pathNotExist : String → RunError
  | readError : String → RunError
deriving Repr, DecidableEq

/-- The column-name resolution block of `run`. -/
def resolveFieldNames (settings_dict : Dict) : FieldNames :=
  { playlist := _get_field_name settings_dict "col_playlist" "playlist"
    title := _get_field_name settings_dict "col_title" "Track Name"
    artists := _get_field_name settings_dict "col_artists" "Artist Name"
    album := _get_field_name settings_dict "col_album" "Album Name"
    date := _get_field_name settings_dict "col_date" "date"
    isrc := _get_field_name settings_dict "col_isrc" "isrc"
    location := _get_field_name settings_dict "col_location" "location"
    spotify_id := _get_field_name settings_dict "col_spotify_id" "Track ID"
    tidal_id := _get_field_name settings_dict "col_tidal_id" "tidal_id" }

/-- Modelled from the spec: `ultrasonics.tools.name_filter.filter` is not
under `src/`; per the spec it returns the subset of playlists whose name
match the regex, with matching semantics owned by that component — here
an abstract predicate `reMatch regex name`. -/
def nameFilterFilter (reMatch : String → String → Bool) (songs_dict : List Playlist)
    (regex : String) : List Playlist :=
  songs_dict.filter (fun pl => reMatch regex pl.name)

/-- `run(settings_dict, **kwargs)`.  `component` is `kwargs["component"]`
(`none` models the key being absent, which raises `KeyError`).  The
returned `songs_dict` is the list of playlists. -/
def run (fs : FileSys) (reMatch : String → String → Bool) (settings_dict : Dict)
    (component : Option String) : Except RunError (List Playlist) :=
  match component with
  | none => .error .missingComponent
  | some component =>
    if component ≠ "inputs" then .error (.badComponent component)
    else
      let path := pyStrip (pyGet settings_dict "path")
      if path = "" then .error .missingPath
      else if ¬ fs.isFile path ∧ ¬ fs.isDir path then .error (.pathNotExist path)
      else
        let has_header := pyOr (pyGet settings_dict "has_header") "Yes" = "Yes"
        let playlist_source := pyStrip (pyOr (pyGet settings_dict "playlist_source") "From file name")
        let include_subfolders := pyOr (pyGet settings_dict "include_subfolders") "No" = "Yes"
        let field_names := resolveFieldNames settings_dict
        let branch : Except RunError (List Playlist) :=
          if fs.isDir path then
            .ok (_folder_playlists fs path include_subfolders has_header field_names)
          else if playlist_source = "From file name" then
            match fs.readCsv path with
            | .error e => .error (.readError e)
            | .ok rows =>
              match _read_one_csv_as_playlist path has_header field_names rows with
              | some playlist => .ok [playlist]
              | none => .ok []
          else
            match fs.readCsv path with
            | .error e => .error (.readError e)
            | .ok rows => .ok (_modeB_playlists has_header field_names rows)
        match branch with
        | .error e => .error e
        | .ok songs_dict =>
          let regex := pyStrip (pyGet settings_dict "filter")
          if regex ≠ "" then .ok (nameFilterFilter reMatch songs_dict regex)
          else .ok songs_dict

/-- The Field Resolver as the spec words it (section 4.3), defined only
for comparison with the source translation `_get_cell`: a blank configured
name resolves to the empty string; with a header map, the configured name
lowercased is looked up to find the real header key, falling back to the
configured name verbatim when absent; the result is the trimmed cell
value, or the empty string when the cell is missing or blank. -/
def getCellSpec (row : Dict) (header_map : Option Dict) (configured_name : String) : String :=
  let configured := pyStrip configured_name
  if configured = "" then ""
  else
    let key :=
      match header_map with
      | some hm =>
        match dictGet? hm (pyLower configured) with
        | some actual => actual
        | none => configured
      | none => configured
    match dictGet? row key with
    | some v => pyStrip v
    | none => ""

/-- The first-appearance order of a list of names (spec side, for the
Mode B bucket-order property). -/
def firstSeen (l : List String) : List String :=
  l.foldl (fun acc n => if n ∈ acc then acc else acc ++ [n]) []

/-- The songs accumulated under a bucket name, empty when the bucket does
not exist. -/
def bucketSongs (bs : List (String × List Track)) (n : String) : List Track :=
  match bs with
  | [] => []
  | (k, ts) :: rest => if k = n then ts else bucketSongs rest n

/-- The songs of the first playlist of a given name, empty when absent. -/
def playlistSongs (pls : List Playlist) (n : String) : List Track :=
  match pls with
  | [] => []
  | pl :: rest => if pl.name = n then pl.songs else playlistSongs rest n

/-- A file system with nothing in it, used to instantiate theorems about
the error paths of `run`. -/
def fsEmpty : FileSys :=
  { isFile := fun _ => false
    isDir := fun _ => false
    globCsvRecursive := fun _ => []
    globCsvTop := fun _ => []
    readCsv := fun _ => .error "no such file" }

/-- A single multi-playlist CSV file `f.csv` with a header row, rows
`(p1,t1),(p2,t2),(,tX),(p1,t3)` — the third row has an empty playlist
name. -/
def fsModeB : FileSys :=
  { isFile := fun p => p = "f.csv"
    isDir := fun _ => false
    globCsvRecursive := fun _ => []
    globCsvTop := fun _ => []
    readCsv := fun p =>
      if p = "f.csv" then
        .ok [["playlist", "Track Name"], ["p1", "t1"], ["p2", "t2"], ["", "tX"], ["p1", "t3"]]
      else .error "no such file" }

/-- A folder `d` whose glob yields `b.csv` before `a.csv` (unsorted), each
file holding one valid row. -/
def fsFolder : FileSys :=
  { isFile := fun _ => false
    isDir := fun p => p = "d"
    globCsvRecursive := fun _ => []
    globCsvTop := fun p => if p = "d" then ["d/b.csv", "d/a.csv"] else []
    readCsv := fun p =>
      if p = "d/a.csv" then .ok [["Track Name"], ["ta"]]
      else if p = "d/b.csv" then .ok [["Track Name"], ["tb"]]
      else .error "no such file" }

/-- A folder `d` with one unreadable file `bad.csv` and one good file
`good.csv`. -/
def fsFolderBad : FileSys :=
  { isFile := fun _ => false
    isDir := fun p => p = "d"
    globCsvRecursive := fun _ => []
    globCsvTop := fun p => if p = "d" then ["d/bad.csv", "d/good.csv"] else []
    readCsv := fun p =>
      if p = "d/good.csv" then .ok [["Track Name"], ["tg"]]
      else .error "I/O error while reading" }

/-- C1: `_row_to_track` produces exactly one Track when the resolved,
trimmed title cell is non-empty, and none (the row is skipped) when the
resolved title is empty; every produced Track carries that non-empty
title. -/
theorem c1_row_to_track_title (row : Dict) (field_names : FieldNames)
    (header_map : Option Dict) :
    (_row_to_track row field_names header_map = none ↔
      _get_cell row header_map field_names.title = "")
    ∧ ∀ t, _row_to_track row field_names header_map = some t →
        t.title = _get_cell row header_map field_names.title ∧ t.title ≠ "" := by
  by_cases h : _get_cell row header_map field_names.title = ""
  · refine ⟨by simp [_row_to_track, h], ?_⟩
    intro t ht
    simp [_row_to_track, h] at ht
  · refine ⟨by simp [_row_to_track, h], ?_⟩
    intro t ht
    simp only [_row_to_track, h, if_neg, if_false] at ht
    cases ht
    exact ⟨rfl, h⟩

/-- Closed instance of `c1_row_to_track_title` at a concrete row. -/
theorem c1_witness :
    (({ title := "T1" } : Track).title
        = _get_cell [("Track Name", " T1 ")] none (resolveFieldNames []).title)
    ∧ (({ title := "T1" } : Track).title ≠ "") :=
  (c1_row_to_track_title [("Track Name", " T1 ")] (resolveFieldNames []) none).2
    { title := "T1" } (by decide)

/-- C3: `_get_cell` resolves fields case-insensitively on header names
only — the configured name lowercased is looked up in the header map,
falling back to the verbatim name; the result is the trimmed cell value,
empty when the configured name is blank or the cell missing/blank; cell
and row-key lookups stay case-sensitive. -/
theorem c3_get_cell_resolution (row : Dict) (header_map : Option Dict)
    (configured_name : String) :
    _get_cell row header_map configured_name = getCellSpec row header_map configured_name
    ∧ _get_cell [("TITLE", " MiXeD ")] (some (mkHeaderMap ["TITLE"])) "Title" = "MiXeD"
    ∧ _get_cell [("title", "v")] (some (mkHeaderMap ["title"])) "TITLE" = "v"
    ∧ _get_cell [("Title", "v")] (some [("title", "TITLE")]) "title" = "" := by
  refine ⟨?_, by decide, by decide, by decide⟩
  unfold _get_cell getCellSpec
  by_cases h : pyStrip configured_name = ""
  · simp [h]
  · simp only [h, if_false]
    cases header_map with
    | none =>
      cases hr : dictGet? row (pyStrip configured_name) <;> (simp [hr]; try decide)
    | some hm =>
      cases hh : dictGet? hm (pyLower (pyStrip configured_name)) <;>
        simp only [hh, Option.getD] <;>
        refine ?_
      · cases hr : dictGet? row (pyStrip configured_name) <;> (simp [hr]; try decide)
      · cases hr : dictGet? row _ <;> (simp [hr]; try decide)

/-- C5: with a blank path setting `run` fails with the missing-path
configuration error, and with a path that is neither an existing file nor
an existing directory it fails with the path-does-not-exist error — in
both cases for every file system and settings, so nothing is read and no
playlists come back. -/
theorem c5_path_errors (fs : FileSys) (reMatch : String → String → Bool)
    (settings_dict : Dict) :
    (pyStrip (pyGet settings_dict "path") = "" →
      run fs reMatch settings_dict (some "inputs") = .error .missingPath)
    ∧ (pyStrip (pyGet settings_dict "path") ≠ "" →
      fs.isFile (pyStrip (pyGet settings_dict "path")) = false →
      fs.isDir (pyStrip (pyGet settings_dict "path")) = false →
      run fs reMatch settings_dict (some "inputs")
        = .error (.pathNotExist (pyStrip (pyGet settings_dict "path")))) := by
  constructor
  · intro h
    simp [run, h]
  · intro h hf hd
    simp [run, h, hf, hd]

/-- Closed instance of `c5_path_errors` on an empty file system. -/
theorem c5_witness :
    run fsEmpty (fun _ _ => false) [("path", "nowhere")] (some "inputs")
      = .error (.pathNotExist (pyStrip (pyGet [("path", "nowhere")] "path"))) :=
  (c5_path_errors fsEmpty (fun _ _ => false) [("path", "nowhere")]).2 (by decide) rfl rfl

/-- C10: `run` fails before anything else — for every file system and
settings — when the component keyword argument is absent (a `KeyError`)
or differs from the string inputs. -/
theorem c10_component_guard (fs : FileSys) (reMatch : String → String → Bool)
    (settings_dict : Dict) :
    run fs reMatch settings_dict none = .error .missingComponent
    ∧ ∀ c, c ≠ "inputs" → run fs reMatch settings_dict (some c) = .error (.badComponent c) := by
  refine ⟨rfl, ?_⟩
  intro c hc
  simp [run, hc]

/-- Closed instance of `c10_component_guard`. -/
theorem c10_witness :
    run fsEmpty (fun _ _ => false) [] (some "outputs") = .error (.badComponent "outputs") :=
  (c10_component_guard fsEmpty (fun _ _ => false) []).2 "outputs" (by decide)

/-- The artists rule as the spec words it: split the resolved cell on a
semicolon, trim each piece, drop empty pieces, omit the field entirely
when the resulting list is empty. -/
def artistsField (raw : String) : Option (List String) :=
  let l := ((pySplit raw ';').map pyStrip).filter (fun a => a ≠ "")
  if raw ≠ "" ∧ l ≠ [] then some l else none

/-- C6: headerless rows are padded with empty strings to the fixed column
count (8 in Mode A, 9 in Mode B, exercised by the two full concrete rows),
a one-cell Mode A row still builds a title-only Track, a Mode B row with
fewer than 2 cells is skipped, and all-blank rows are skipped in both
modes. -/
theorem c6_headerless_padding (field_names : FieldNames) (row : List String) :
    _headerless_row_to_track (resolveFieldNames []) ["T1"] = some { title := "T1" }
    ∧ (row.length < 2 → _headerlessB_row field_names row = none)
    ∧ (blankRow row = true →
        _headerless_row_to_track field_names row = none
        ∧ _headerlessB_row field_names row = none)
    ∧ _headerless_row_to_track (resolveFieldNames [])
        ["T", "A1;A2", "Al", "D", "I", "L", "S", "Ti"]
        = some { title := "T", artists := some ["A1", "A2"], album := some "Al",
                 date := some "D", isrc := some "I", location := some "L",
                 id := some { spotify := some "S", tidal := some "Ti" } }
    ∧ _headerlessB_row (resolveFieldNames [])
        ["P", "T", "A1;A2", "Al", "D", "I", "L", "S", "Ti"]
        = some ("P", { title := "T", artists := some ["A1", "A2"], album := some "Al",
                       date := some "D", isrc := some "I", location := some "L",
                       id := some { spotify := some "S", tidal := some "Ti" } }) := by
  refine ⟨by decide, ?_, ?_, by decide, by decide⟩
  · intro h
    by_cases hb : blankRow row <;> simp [_headerlessB_row, hb, h]
  · intro h
    constructor
    · simp [_headerless_row_to_track, h]
    · simp [_headerlessB_row, h]

/-- Closed instance of `c6_headerless_padding`: a one-cell Mode B row is
skipped. -/
theorem c6_witness :
    _headerlessB_row (resolveFieldNames []) ["x"] = none :=
  (c6_headerless_padding (resolveFieldNames []) ["x"]).2.1 (by decide)

/-- C7: the artists of a produced Track are the resolved artists cell
split on semicolons with each piece trimmed and empty pieces dropped, the
field being absent when that list is empty. -/
theorem c7_artists_field (row : Dict) (field_names : FieldNames)
    (header_map : Option Dict) (t : Track) :
    (_row_to_track row field_names header_map = some t →
      t.artists = artistsField (_get_cell row header_map field_names.artists))
    ∧ _row_to_track [("Track Name", "T"), ("Artist Name", "A; B ; C")]
        (resolveFieldNames []) none
        = some { title := "T", artists := some ["A", "B", "C"] }
    ∧ _row_to_track [("Track Name", "T"), ("Artist Name", "")]
        (resolveFieldNames []) none
        = some { title := "T" } := by
  refine ⟨?_, by decide, by decide⟩
  intro h
  by_cases ht : _get_cell row header_map field_names.title = ""
  · simp [_row_to_track, ht] at h
  · simp only [_row_to_track, ht, if_neg, if_false] at h
    cases h
    show (if _get_cell row header_map field_names.artists ≠ "" then _ else none) = _
    by_cases h1 : _get_cell row header_map field_names.artists = "" <;>
      by_cases h2 :
        ((pySplit (_get_cell row header_map field_names.artists) ';').map pyStrip).filter
            (fun a => a ≠ "") = [] <;>
      simp [artistsField, h1, h2]

/-- Closed instance of `c7_artists_field` at a concrete row. -/
theorem c7_witness :
    ({ title := "T", artists := some ["A", "B", "C"] } : Track).artists
      = artistsField (_get_cell [("Track Name", "T"), ("Artist Name", "A; B ; C")] none
          (resolveFieldNames []).artists) :=
  (c7_artists_field [("Track Name", "T"), ("Artist Name", "A; B ; C")]
    (resolveFieldNames []) none { title := "T", artists := some ["A", "B", "C"] }).1
    (by decide)


theorem bucketSongs_bucketAdd (bs : List (String × List Track)) (n : String) (t : Track)
    (m : String) :
    bucketSongs (bucketAdd bs n t) m = bucketSongs bs m ++ if m = n then [t] else [] := by
  induction bs with
  | nil =>
    by_cases h : m = n
    · subst h
      simp [bucketAdd, bucketSongs]
    · have h2 : ¬ n = m := fun hh => h hh.symm
      simp [bucketAdd, bucketSongs, h, h2]
  | cons hd rest ih =>
    obtain ⟨k, ts⟩ := hd
    by_cases hk : k = n
    · subst hk
      by_cases hm : k = m
      · subst hm
        simp [bucketAdd, bucketSongs]
      · have hm2 : ¬ m = k := fun hh => hm hh.symm
        simp [bucketAdd, bucketSongs, hm, hm2]
    · by_cases hm : k = m
      · subst hm
        simp [bucketAdd, bucketSongs, hk]
      · simp [bucketAdd, bucketSongs, hk, hm, ih]

theorem keys_bucketAdd (bs : List (String × List Track)) (n : String) (t : Track) :
    (bucketAdd bs n t).map Prod.fst =
      if n ∈ bs.map Prod.fst then bs.map Prod.fst else bs.map Prod.fst ++ [n] := by
  induction bs with
  | nil => simp [bucketAdd]
  | cons hd rest ih =>
    obtain ⟨k, ts⟩ := hd
    by_cases hk : k = n
    · subst hk
      simp [bucketAdd]
    · have h2 : ¬ n = k := fun hh => hk hh.symm
      by_cases hmem : n ∈ rest.map Prod.fst
      · simp [bucketAdd, hk, hmem, ih, h2]
      · simp [bucketAdd, hk, hmem, ih, h2]

theorem foldBuckets_append_single (g : α → Option (String × Track)) (rows : List α) (r : α) :
    foldBuckets g (rows ++ [r]) =
      match g r with
      | none => foldBuckets g rows
      | some (n, t) => bucketAdd (foldBuckets g rows) n t := by
  simp only [foldBuckets, List.foldl_append, List.foldl_cons, List.foldl_nil]

theorem firstSeen_append_single (l : List String) (n : String) :
    firstSeen (l ++ [n]) = if n ∈ firstSeen l then firstSeen l else firstSeen l ++ [n] := by
  simp [firstSeen, List.foldl_append]

theorem foldBuckets_keys (g : α → Option (String × Track)) (rows : List α) :
    (foldBuckets g rows).map Prod.fst
      = firstSeen (rows.filterMap (fun r => (g r).map Prod.fst)) := by
  induction rows using List.reverseRecOn with
  | nil => simp [foldBuckets, firstSeen]
  | append_singleton rows r ih =>
    rw [foldBuckets_append_single]
    cases hg : g r with
    | none => simpa [hg, List.filterMap_append] using ih
    | some nt =>
      obtain ⟨n, t⟩ := nt
      rw [keys_bucketAdd, ih]
      simp [hg, List.filterMap_append, firstSeen_append_single]

theorem foldBuckets_songs (g : α → Option (String × Track)) (rows : List α) (n : String) :
    bucketSongs (foldBuckets g rows) n
      = rows.filterMap (fun r =>
          match g r with
          | some (m, t) => if m = n then some t else none
          | none => none) := by
  induction rows using List.reverseRecOn with
  | nil => simp [foldBuckets, bucketSongs]
  | append_singleton rows r ih =>
    rw [foldBuckets_append_single]
    cases hg : g r with
    | none => simpa [hg, List.filterMap_append] using ih
    | some nt =>
      obtain ⟨m, t⟩ := nt
      rw [bucketSongs_bucketAdd, ih]
      by_cases h : m = n
      · subst h
        simp [hg, List.filterMap_append]
      · have h2 : ¬ n = m := fun hh => h hh.symm
        simp [hg, List.filterMap_append, h, h2]

theorem playlistSongs_map_buckets (bs : List (String × List Track)) (n : String) :
    playlistSongs (bs.map (fun b => { name := b.1, id := [], songs := b.2 })) n
      = bucketSongs bs n := by
  induction bs with
  | nil => rfl
  | cons hd rest ih =>
    obtain ⟨k, ts⟩ := hd
    by_cases h : k = n
    · simp [playlistSongs, bucketSongs, h]
    · simp [playlistSongs, bucketSongs, h, ih]

/-- C2: in Mode B the output playlists appear in first-appearance order
of the playlist names of the rows (rows with an empty resolved playlist
name, or no track, are skipped), each playlist accumulating its tracks in
row order even across non-contiguous recurrences; the concrete file
`(p1,t1),(p2,t2),(,tX),(p1,t3)` yields `[p1, p2]` with `p1` holding
`[t1, t3]` and `p2` holding `[t2]`. -/
theorem c2_modeB_grouping :
    (∀ (field_names : FieldNames) (rows : List (List String)),
      (_modeB_playlists true field_names rows).map (fun pl => pl.name)
        = firstSeen ((dictReaderRows rows).filterMap
            (fun r => (_modeB_row field_names (mkHeaderMap (dictReaderFieldnames rows)) r).map
              Prod.fst)))
    ∧ (∀ (field_names : FieldNames) (rows : List (List String)) (n : String),
      playlistSongs (_modeB_playlists true field_names rows) n
        = (dictReaderRows rows).filterMap
            (fun r =>
              match _modeB_row field_names (mkHeaderMap (dictReaderFieldnames rows)) r with
              | some (m, t) => if m = n then some t else none
              | none => none))
    ∧ run fsModeB (fun _ _ => false)
        [("path", "f.csv"), ("playlist_source", "From CSV column")] (some "inputs")
        = .ok [{ name := "p1", id := [], songs := [{ title := "t1" }, { title := "t3" }] },
               { name := "p2", id := [], songs := [{ title := "t2" }] }] := by
  refine ⟨?_, ?_, by decide⟩
  · intro field_names rows
    simp only [_modeB_playlists, if_true, List.map_map]
    exact foldBuckets_keys _ _
  · intro field_names rows n
    simp only [_modeB_playlists, if_true]
    rw [playlistSongs_map_buckets]
    exact foldBuckets_songs _ _ _

theorem read_one_some (path : String) (hh : Bool) (fns : FieldNames)
    (rows : List (List String)) (pl : Playlist)
    (h : _read_one_csv_as_playlist path hh fns rows = some pl) :
    pl.songs ≠ [] ∧ pl.name = playlistNameOfPath path := by
  simp only [_read_one_csv_as_playlist] at h
  split at h <;> split at h
  all_goals
    first
      | exact Option.noConfusion h
      | (cases h; exact ⟨by assumption, rfl⟩)

theorem mem_bucketAdd_ne_nil (bs : List (String × List Track)) (n : String) (t : Track)
    (hbs : ∀ b ∈ bs, b.2 ≠ []) : ∀ b ∈ bucketAdd bs n t, b.2 ≠ [] := by
  induction bs with
  | nil =>
    intro b hb
    simp [bucketAdd] at hb
    subst hb
    simp
  | cons hd rest ih =>
    obtain ⟨k, ts⟩ := hd
    intro b hb
    by_cases hk : k = n
    · simp only [bucketAdd, if_pos hk] at hb
      rcases List.mem_cons.mp hb with hb | hb
      · subst hb
        simp
      · exact hbs b (List.mem_cons_of_mem _ hb)
    · simp only [bucketAdd, if_neg hk] at hb
      rcases List.mem_cons.mp hb with hb | hb
      · subst hb
        exact hbs _ (List.mem_cons_self _ _)
      · exact ih (fun b hb => hbs b (List.mem_cons_of_mem _ hb)) b hb

theorem foldBuckets_ne_nil (g : α → Option (String × Track)) (rows : List α) :
    ∀ b ∈ foldBuckets g rows, b.2 ≠ [] := by
  induction rows using List.reverseRecOn with
  | nil => simp [foldBuckets]
  | append_singleton rows r ih =>
    rw [foldBuckets_append_single]
    cases hg : g r with
    | none =>
      simp only [hg]
      exact ih
    | some nt =>
      obtain ⟨n, t⟩ := nt
      simp only [hg]
      exact mem_bucketAdd_ne_nil _ n t ih

theorem modeB_ne_nil (hh : Bool) (fns : FieldNames) (rows : List (List String)) :
    ∀ pl ∈ _modeB_playlists hh fns rows, pl.songs ≠ [] := by
  intro pl hpl
  unfold _modeB_playlists at hpl
  rcases List.mem_map.mp hpl with ⟨b, hb, rfl⟩
  cases hh with
  | true => exact foldBuckets_ne_nil _ _ b (by simpa using hb)
  | false => exact foldBuckets_ne_nil _ _ b (by simpa using hb)

theorem folder_ne_nil (fs : FileSys) (path : String) (sub hh : Bool) (fns : FieldNames) :
    ∀ pl ∈ _folder_playlists fs path sub hh fns, pl.songs ≠ [] := by
  intro pl hpl
  unfold _folder_playlists at hpl
  rcases List.mem_filterMap.mp hpl with ⟨p, _, hitem⟩
  unfold _folder_item at hitem
  cases hread : fs.readCsv p with
  | error e =>
    rw [hread] at hitem
    exact absurd hitem (by simp)
  | ok rows =>
    rw [hread] at hitem
    exact (read_one_some _ _ _ _ _ hitem).1

theorem all_nonempty_of (l : List Playlist) (h : ∀ pl ∈ l, pl.songs ≠ []) :
    l.all (fun pl => !pl.songs.isEmpty) = true := by
  rw [List.all_eq_true]
  intro pl hpl
  cases hs : pl.songs with
  | nil => exact absurd hs (h pl hpl)
  | cons a l2 => simp [hs]

theorem mem_nameFilterFilter (reMatch : String → String → Bool) (base : List Playlist)
    (regex : String) (pl : Playlist) (h : pl ∈ nameFilterFilter reMatch base regex) :
    pl ∈ base :=
  List.mem_of_mem_filter h

/-- C4: in every mode, no playlist with zero tracks is present in the
returned collection — files with no valid tracks yield no playlist and
Mode B buckets exist only once a track has been appended. -/
theorem c4_no_empty_playlist (fs : FileSys) (reMatch : String → String → Bool)
    (settings_dict : Dict) (component : Option String) (pls : List Playlist) :
    run fs reMatch settings_dict component = .ok pls →
    pls.all (fun pl => !pl.songs.isEmpty) = true := by
  intro h
  cases component with
  | none => exact Except.noConfusion h
  | some c =>
    simp only [run] at h
    split at h
    · exact Except.noConfusion h
    · split at h
      · exact Except.noConfusion h
      · split at h
        · exact Except.noConfusion h
        · split at h
          · exact Except.noConfusion h
          · rename_i songs hbranch
            have hs : ∀ pl ∈ songs, pl.songs ≠ [] := by
              split at hbranch
              · cases hbranch
                exact folder_ne_nil _ _ _ _ _
              · split at hbranch
                · split at hbranch
                  · exact Except.noConfusion hbranch
                  · split at hbranch
                    · cases hbranch
                      intro pl hpl
                      rcases List.mem_singleton.mp hpl with rfl
                      exact (read_one_some _ _ _ _ _ (by assumption)).1
                    · cases hbranch
                      intro pl hpl
                      exact absurd hpl (List.not_mem_nil pl)
                · split at hbranch
                  · exact Except.noConfusion hbranch
                  · cases hbranch
                    exact modeB_ne_nil _ _ _
            split at h
            · cases h
              exact all_nonempty_of _ (fun pl hpl =>
                hs pl (mem_nameFilterFilter _ _ _ _ hpl))
            · cases h
              exact all_nonempty_of _ hs

/-- Closed instance of `c4_no_empty_playlist` on the Mode B example run. -/
theorem c4_witness :
    ([{ name := "p1", id := [], songs := [{ title := "t1" }, { title := "t3" }] },
      { name := "p2", id := [], songs := [{ title := "t2" }] }] : List Playlist).all
        (fun pl => !pl.songs.isEmpty) = true :=
  c4_no_empty_playlist fsModeB (fun _ _ => false)
    [("path", "f.csv"), ("playlist_source", "From CSV column")] (some "inputs") _ (by decide)

theorem charListLe_total (as bs : List Char) :
    charListLe as bs = true ∨ charListLe bs as = true := by
  induction as generalizing bs with
  | nil => left; simp [charListLe]
  | cons a as ih =>
    cases bs with
    | nil => right; simp [charListLe]
    | cons b bs2 =>
      by_cases h1 : a.toNat < b.toNat
      · left; simp [charListLe, h1]
      · by_cases h2 : b.toNat < a.toNat
        · right; simp [charListLe, h2]
        · rcases ih bs2 with h | h
          · left; simp [charListLe, h1, h2, h]
          · right; simp [charListLe, h1, h2, h]

theorem charListLe_trans (as bs cs : List Char) (h1 : charListLe as bs = true)
    (h2 : charListLe bs cs = true) : charListLe as cs = true := by
  induction as generalizing bs cs with
  | nil => simp [charListLe]
  | cons a as ih =>
    cases bs with
    | nil => simp [charListLe] at h1
    | cons b bs2 =>
      cases cs with
      | nil => simp [charListLe] at h2
      | cons c cs2 =>
        rw [charListLe] at h1 h2 ⊢
        by_cases hab : a.toNat < b.toNat
        · by_cases hbc : b.toNat < c.toNat
          · rw [if_pos (by omega : a.toNat < c.toNat)]
          · by_cases hcb : c.toNat < b.toNat
            · rw [if_neg hbc, if_pos hcb] at h2
              exact absurd h2 (by simp)
            · rw [if_pos (by omega : a.toNat < c.toNat)]
        · by_cases hba : b.toNat < a.toNat
          · rw [if_neg hab, if_pos hba] at h1
            exact absurd h1 (by simp)
          · by_cases hbc : b.toNat < c.toNat
            · rw [if_pos (by omega : a.toNat < c.toNat)]
            · by_cases hcb : c.toNat < b.toNat
              · rw [if_neg hbc, if_pos hcb] at h2
                exact absurd h2 (by simp)
              · rw [if_neg hab, if_neg hba] at h1
                rw [if_neg hbc, if_neg hcb] at h2
                rw [if_neg (by omega : ¬a.toNat < c.toNat),
                    if_neg (by omega : ¬c.toNat < a.toNat)]
                exact ih bs2 cs2 h1 h2

theorem pyStrLe_total (a b : String) : pyStrLe a b = true ∨ pyStrLe b a = true :=
  charListLe_total _ _

theorem pyStrLe_trans (a b c : String) (h1 : pyStrLe a b = true) (h2 : pyStrLe b c = true) :
    pyStrLe a c = true :=
  charListLe_trans _ _ _ h1 h2

theorem mem_orderedInsertB (le : α → α → Bool) (a : α) (l : List α) (x : α)
    (hx : x ∈ orderedInsertB le a l) : x = a ∨ x ∈ l := by
  induction l with
  | nil => simpa [orderedInsertB] using hx
  | cons b l ih =>
    by_cases h : le a b = true
    · rw [orderedInsertB, if_pos h] at hx
      rcases List.mem_cons.mp hx with rfl | hx
      · exact Or.inl rfl
      · exact Or.inr hx
    · rw [orderedInsertB, if_neg h] at hx
      rcases List.mem_cons.mp hx with rfl | hx
      · exact Or.inr (List.mem_cons_self _ _)
      · rcases ih hx with rfl | hx2
        · exact Or.inl rfl
        · exact Or.inr (List.mem_cons_of_mem _ hx2)

theorem pairwise_orderedInsertB (le : α → α → Bool)
    (total : ∀ a b, le a b = true ∨ le b a = true)
    (htrans : ∀ a b c, le a b = true → le b c = true → le a c = true)
    (a : α) (l : List α) (hl : l.Pairwise (fun x y => le x y = true)) :
    (orderedInsertB le a l).Pairwise (fun x y => le x y = true) := by
  induction l with
  | nil => simp [orderedInsertB]
  | cons b l ih =>
    rcases List.pairwise_cons.mp hl with ⟨hb, hl2⟩
    by_cases h : le a b = true
    · rw [orderedInsertB, if_pos h]
      refine List.pairwise_cons.mpr ⟨?_, hl⟩
      intro x hx
      rcases List.mem_cons.mp hx with rfl | hx
      · exact h
      · exact htrans a b x h (hb x hx)
    · rw [orderedInsertB, if_neg h]
      have hba : le b a = true := (total a b).resolve_left h
      refine List.pairwise_cons.mpr ⟨?_, ih hl2⟩
      intro x hx
      rcases mem_orderedInsertB le a l x hx with rfl | hx2
      · exact hba
      · exact hb x hx2

theorem pairwise_insertionSortB (le : α → α → Bool)
    (total : ∀ a b, le a b = true ∨ le b a = true)
    (htrans : ∀ a b c, le a b = true → le b c = true → le a c = true)
    (l : List α) :
    (insertionSortB le l).Pairwise (fun x y => le x y = true) := by
  induction l with
  | nil => simp [insertionSortB]
  | cons a l ih => exact pairwise_orderedInsertB le total htrans a _ ih

/-- C8: folder mode processes the globbed `.csv` files in sorted-by-path
order, the output playlist names are exactly the base names (without
extension) of the files that produced a playlist, in that order, and the
concrete folder holding `a.csv` and `b.csv` yields the playlists named a
then b. -/
theorem c8_folder_sorted_order :
    (∀ (fs : FileSys) (folder_path : String) (include_subfolders : Bool),
      (_csv_files_in_folder fs folder_path include_subfolders).Pairwise
        (fun a b => pyStrLe a b = true))
    ∧ (∀ (fs : FileSys) (path : String) (sub hh : Bool) (fns : FieldNames),
      (_folder_playlists fs path sub hh fns).map (fun pl => pl.name)
        = (_csv_files_in_folder fs path sub).filterMap
            (fun p => (_folder_item fs hh fns p).map (fun pl => pl.name)))
    ∧ (∀ (fs : FileSys) (hh : Bool) (fns : FieldNames) (p : String) (pl : Playlist),
        _folder_item fs hh fns p = some pl → pl.name = playlistNameOfPath p)
    ∧ run fsFolder (fun _ _ => false) [("path", "d")] (some "inputs")
        = .ok [{ name := "a", id := [], songs := [{ title := "ta" }] },
               { name := "b", id := [], songs := [{ title := "tb" }] }] := by
  refine ⟨?_, ?_, ?_, by decide⟩
  · intro fs folder_path sub
    unfold _csv_files_in_folder pySorted
    split
    · exact pairwise_insertionSortB pyStrLe pyStrLe_total pyStrLe_trans _
    · exact pairwise_insertionSortB pyStrLe pyStrLe_total pyStrLe_trans _
  · intro fs path sub hh fns
    unfold _folder_playlists
    rw [List.map_filterMap]
  · intro fs hh fns p pl h
    unfold _folder_item at h
    cases hread : fs.readCsv p with
    | error e =>
      rw [hread] at h
      exact Option.noConfusion h
    | ok rows =>
      rw [hread] at h
      exact (read_one_some _ _ _ _ _ h).2

/-- Closed instance of `c8_folder_sorted_order`: a playlist produced from
the file at path d/a.csv is named a. -/
theorem c8_witness :
    ({ name := "a", id := [], songs := [{ title := "ta" }] } : Playlist).name
      = playlistNameOfPath "d/a.csv" :=
  c8_folder_sorted_order.2.2.1 fsFolder true (resolveFieldNames []) "d/a.csv"
    { name := "a", id := [], songs := [{ title := "ta" }] } (by decide)

theorem exists_ok_filter_step (reMatch : String → String → Bool) (regex : String)
    (base : List Playlist) :
    ∃ pls, (match (Except.ok base : Except RunError (List Playlist)) with
      | .error e => Except.error e
      | .ok songs_dict =>
        if ¬regex = "" then Except.ok (nameFilterFilter reMatch songs_dict regex)
        else Except.ok songs_dict) = Except.ok pls := by
  by_cases hr : regex = ""
  · exact ⟨base, by simp [hr]⟩
  · exact ⟨nameFilterFilter reMatch base regex, by simp [hr]⟩

/-- C9: in folder mode a per-file read failure is caught and skipped —
`run` succeeds for every file system once the path is a directory, and on
the concrete folder with one unreadable and one good file only the good
file contributes a playlist. -/
theorem c9_folder_resilience :
    (∀ (fs : FileSys) (reMatch : String → String → Bool) (settings_dict : Dict),
      pyStrip (pyGet settings_dict "path") ≠ "" →
      fs.isDir (pyStrip (pyGet settings_dict "path")) = true →
      ∃ pls, run fs reMatch settings_dict (some "inputs") = .ok pls)
    ∧ run fsFolderBad (fun _ _ => false) [("path", "d")] (some "inputs")
        = .ok [{ name := "good", id := [], songs := [{ title := "tg" }] }] := by
  refine ⟨?_, by decide⟩
  intro fs reMatch settings_dict hpath hdir
  simp only [run, hdir, ne_eq]
  rw [if_neg (by simp)]
  rw [if_neg hpath]
  rw [if_neg (by simp)]
  rw [if_pos trivial]
  exact exists_ok_filter_step reMatch (pyStrip (pyGet settings_dict "filter")) _

/-- Closed instance of `c9_folder_resilience` on the folder with a bad
file. -/
theorem c9_witness :
    ∃ pls, run fsFolderBad (fun _ _ => false) [("path", "d")] (some "inputs") = .ok pls :=
  c9_folder_resilience.1 fsFolderBad (fun _ _ => false) [("path", "d")]
    (by decide) (by decide)
